import Mathlib

/-!
Verification of the schedule manager of the padel-monitor repository
(`src/schedule_manager.py`): the Russian date/time parser and the visit store.

Modelling conventions (shallow embedding):
* Python `datetime` values (always in the fixed Moscow offset UTC+3) are
  modelled by `PyDateTime`: a rata-die day count (days since 1970-01-01 of the
  wall-clock date), wall-clock time-of-day fields, and the UTC offset in hours
  (`tzh`, always 3 in this program).  Aware-datetime comparison compares the
  denoted instants, i.e. the values of `toUTCMicros`.
* `datetime.now(self.moscow_tz)` is modelled by an explicit `now : PyDateTime`
  parameter threaded through every function that reads the clock.
* Texts are lists of characters; `re` patterns are hand-compiled to
  backtracking matchers over `List Char` that reproduce Python's leftmost
  search order, greedy quantifiers with backtracking, and the
  lookahead/lookbehind assertions of the concrete patterns in the source.
  `\d` and `\s` are modelled as ASCII digits and ASCII whitespace (the inputs
  of interest contain no other digit or space characters).
* `datetime.min.replace(hour=.., minute=..)` in `_create_time_range` is only
  ever read back through its `hour`/`minute` fields, so a time range is
  modelled as a pair of `(hour, minute)` pairs.
* The SHA-256 fingerprint `visit_id` is content-derived from
  `(start.isoformat(), end.isoformat(), text)`; the hash itself is not
  modelled, the `id` field carries its preimage content `(start, end, text)`.
  No operation of the program reads the id.
-/

/-! ### Calendar arithmetic (proleptic Gregorian, as Python's datetime) -/

/-- Leap year test, as `calendar.isleap` / `datetime`'s Gregorian rules. -/
def isLeap (y : Int) : Bool :=
  y % 4 == 0 && (y % 100 != 0 || y % 400 == 0)

/-- Number of days in a month of a given year. -/
def daysInMonth (y : Int) (m : Nat) : Nat :=
  if m = 1 then 31 else if m = 2 then (if isLeap y then 29 else 28)
  else if m = 3 then 31 else if m = 4 then 30 else if m = 5 then 31
  else if m = 6 then 30 else if m = 7 then 31 else if m = 8 then 31
  else if m = 9 then 30 else if m = 10 then 31 else if m = 11 then 30
  else if m = 12 then 31 else 0

/-- Days since 1970-01-01 of the civil date y-m-d (standard civil-from-days
conversion for the proleptic Gregorian calendar). -/
def daysFromCivil (y : Int) (m d : Nat) : Int :=
  let yAdj : Int := if m ≤ 2 then y - 1 else y
  let era : Int := Int.fdiv yAdj 400
  let yoe : Nat := (yAdj - era * 400).toNat
  let mp : Nat := if m > 2 then m - 3 else m + 9
  let doy : Nat := (153 * mp + 2) / 5 + d - 1
  let doe : Nat := yoe * 365 + yoe / 4 - yoe / 100 + doy
  era * 146097 + (doe : Int) - 719468

/-- Civil date (year, month, day) of a days-since-1970 count (inverse of
`daysFromCivil`). -/
def civilFromDays (z0 : Int) : Int × Nat × Nat :=
  let z : Int := z0 + 719468
  let era : Int := Int.fdiv z 146097
  let doe : Nat := (z - era * 146097).toNat
  let yoe : Nat := (doe - doe / 1460 + doe / 36524 - doe / 146096) / 365
  let doy : Nat := doe - (365 * yoe + yoe / 4 - yoe / 100)
  let mp : Nat := (5 * doy + 2) / 153
  let d : Nat := doy - (153 * mp + 2) / 5 + 1
  let m : Nat := if mp < 10 then mp + 3 else mp - 9
  (era * 400 + (yoe : Int) + (if m ≤ 2 then 1 else 0), m, d)

/-- Python `datetime.weekday()`: Monday = 0 … Sunday = 6.  1970-01-01 was a
Thursday. -/
def weekdayOfDays (z : Int) : Nat :=
  ((z + 3) % 7).toNat

/-! ### The datetime model -/

/-- An aware Python datetime in a fixed-offset timezone: wall-clock date
(as days since 1970-01-01), wall-clock time of day, and the offset in hours. -/
structure PyDateTime where
  days : Int
  hour : Nat
  minute : Nat
  second : Nat
  microsecond : Nat
  tzh : Int
deriving DecidableEq, Repr

/-- The instant denoted by an aware datetime, in microseconds since the epoch:
wall-clock microseconds minus the UTC offset.  Python compares aware datetimes
by this value. -/
def toUTCMicros (t : PyDateTime) : Int :=
  ((((t.days * 24 + (t.hour : Int)) * 60 + (t.minute : Int)) * 60
      + (t.second : Int)) * 1000000 + (t.microsecond : Int))
    - t.tzh * 3600000000

/-- Python `datetime` constructor validity: `datetime(year, month, day)`
raises `ValueError` outside these bounds. -/
def validYMD (y : Int) (m d : Nat) : Bool :=
  1 ≤ y && y ≤ 9999 && 1 ≤ m && m ≤ 12 && 1 ≤ d && d ≤ daysInMonth y m

/-- Models `datetime(year, month, day, tzinfo=self.moscow_tz)` wrapped in the
source's `try`/`except ValueError`: `none` when the constructor would raise. -/
def mkDatetime (y : Int) (m d : Nat) : Option PyDateTime :=
  if validYMD y m d then
    some { days := daysFromCivil y m d, hour := 0, minute := 0, second := 0,
           microsecond := 0, tzh := 3 }
  else none

/-- Models `dt + timedelta(days=k)` (wall-clock day arithmetic on an aware
datetime with a fixed offset). -/
def addDays (t : PyDateTime) (k : Int) : PyDateTime :=
  { t with days := t.days + k }

/-- Models `dt.replace(hour=0, minute=0, second=0, microsecond=0)`. -/
def atMidnight (t : PyDateTime) : PyDateTime :=
  { t with hour := 0, minute := 0, second := 0, microsecond := 0 }

/-- Models `dt.year` (via the civil date of the day count). -/
def PyDateTime.year (t : PyDateTime) : Int := (civilFromDays t.days).1

/-! ### Characters and text helpers -/

/-- ASCII whitespace, modelling `\s` for the texts of interest. -/
def isSpaceCh (c : Char) : Bool :=
  c = ' ' || c = '\t' || c = '\n' || c = '\r' ||
  c = Char.ofNat 11 || c = Char.ofNat 12

/-- ASCII digit, modelling `\d` for the texts of interest. -/
def isDigitCh (c : Char) : Bool := c.isDigit

/-- Numeric value of a digit character. -/
def dval (c : Char) : Nat := c.toNat - 48

/-- Lowercase Russian letter or ё, the character class `[а-яё]`. -/
def isCyrCh (c : Char) : Bool :=
  (decide (Char.ofNat 1072 ≤ c) && decide (c ≤ Char.ofNat 1103)) ||
  c = Char.ofNat 1105

/-- Models `str.lower()` for ASCII letters and Cyrillic А-Я/Ё (the only
uppercase characters occurring in the inputs of interest). -/
def lowerChar (c : Char) : Char :=
  if decide ('A' ≤ c) && decide (c ≤ 'Z') then Char.ofNat (c.toNat + 32)
  else if decide (Char.ofNat 1040 ≤ c) && decide (c ≤ Char.ofNat 1071) then
    Char.ofNat (c.toNat + 32)
  else if c = Char.ofNat 1025 then Char.ofNat 1105
  else c

/-- Models `text.lower()`. -/
def lowerStr (s : List Char) : List Char := s.map lowerChar

/-- Does `w` occur as a prefix of `s`? -/
def hasPre : List Char → List Char → Bool
  | [], _ => true
  | _ :: _, [] => false
  | c :: w, d :: s => c == d && hasPre w s

/-- Does `w` occur as a contiguous substring of `s`?  Models Python's
`w in s` on strings. -/
def containsSeq (w : List Char) : List Char → Bool
  | [] => hasPre w []
  | c :: rest => hasPre w (c :: rest) || containsSeq w rest

/-- Drop the literal `w` from the front of `s` (regex literal). -/
def dropLit : List Char → List Char → Option (List Char)
  | [], s => some s
  | _ :: _, [] => none
  | c :: w, d :: s => if c == d then dropLit w s else none

/-- Maximal-munch `\s*`.  (Sound without backtracking wherever the following
regex atom cannot match a whitespace character.) -/
def wsStar (s : List Char) : List Char := s.dropWhile isSpaceCh

/-- Maximal-munch `\s+`: at least one whitespace character. -/
def wsPlus : List Char → Option (List Char)
  | c :: rest => if isSpaceCh c then some (rest.dropWhile isSpaceCh) else none
  | [] => none

/-- The separator class `[:\.]`. -/
def colonDot : List Char → Option (List Char)
  | c :: rest => if c == ':' || c == '.' then some rest else none
  | [] => none

/-- Exactly two digits, `(\d{2})`, with their value. -/
def d2 : List Char → Option (Nat × List Char)
  | c1 :: c2 :: rest =>
    if isDigitCh c1 && isDigitCh c2 then some (10 * dval c1 + dval c2, rest)
    else none
  | _ => none

/-- Exactly four digits, `(\d{4})`, with their value. -/
def d4 : List Char → Option (Nat × List Char)
  | c1 :: c2 :: c3 :: c4 :: rest =>
    if isDigitCh c1 && isDigitCh c2 && isDigitCh c3 && isDigitCh c4 then
      some (1000 * dval c1 + 100 * dval c2 + 10 * dval c3 + dval c4, rest)
    else none
  | _ => none

/-- The greedy group `(\d{1,2})`: candidate (value, rest) pairs in the
backtracking order of the regex engine (two digits first, then one). -/
def d12alts : List Char → List (Nat × List Char)
  | c1 :: c2 :: rest =>
    if isDigitCh c1 then
      if isDigitCh c2 then
        [(10 * dval c1 + dval c2, rest), (dval c1, c2 :: rest)]
      else [(dval c1, c2 :: rest)]
    else []
  | [c1] => if isDigitCh c1 then [(dval c1, [])] else []
  | [] => []

/-- Maximal run of `[а-яё]` characters (nonempty), with the rest. -/
def cyrRun (s : List Char) : Option (List Char × List Char) :=
  let run := s.takeWhile isCyrCh
  if run.isEmpty then none else some (run, s.drop run.length)

/-- Models `re.search`: try the match function at every start position, left
to right, returning the first success. -/
def searchFrom (f : List Char → Option α) : List Char → Option α
  | [] => f []
  | c :: rest =>
    match f (c :: rest) with
    | some r => some r
    | none => searchFrom f rest

/-- Models `re.search` for a pattern with a one-character lookbehind: the
match function also receives the character preceding the position. -/
def searchFromPrev (f : Option Char → List Char → Option α) :
    Option Char → List Char → Option α
  | prev, [] => f prev []
  | prev, c :: rest =>
    match f prev (c :: rest) with
    | some r => some r
    | none => searchFromPrev f (some c) rest

/-! ### Time-range patterns (`ScheduleManager.parse_time_range` and helpers) -/

/-- Literal "до". -/
def litDo : List Char := "до".toList

/-- Literal "с". -/
def litS : List Char := "с".toList

/-- Literal "от". -/
def litOt : List Char := "от".toList

/-- Literal "в". -/
def litV : List Char := "в".toList

/-- Literal "время". -/
def litVremya : List Char := "время".toList

/-- Core of pattern 1 after the optional prefix:
`\s*(\d{1,2})[:\.](\d{2})\s+до\s+(\d{1,2})[:\.](\d{2})`. -/
def matchDoCore (s0 : List Char) : Option (Nat × Nat × Nat × Nat) :=
  let s := wsStar s0
  (d12alts s).findSome? fun p1 => do
    let s ← colonDot p1.2
    let (m1, s) ← d2 s
    let s ← wsPlus s
    let s ← dropLit litDo s
    let s ← wsPlus s
    (d12alts s).findSome? fun p2 => do
      let s ← colonDot p2.2
      let (m2, _) ← d2 s
      pure (p1.1, m1, p2.1, m2)

/-- Pattern 1 at one position:
`(?:с|от)?\s*(\d{1,2})[:\.](\d{2})\s+до\s+(\d{1,2})[:\.](\d{2})`
(alternation order of the engine: "с", then "от", then the empty prefix). -/
def matchDoAt (s : List Char) : Option (Nat × Nat × Nat × Nat) :=
  ((dropLit litS s).bind matchDoCore).orElse fun _ =>
  ((dropLit litOt s).bind matchDoCore).orElse fun _ =>
  matchDoCore s

/-- `re.search` of pattern 1 (the unified "до" pattern). -/
def matchDoSearch (s : List Char) : Option (Nat × Nat × Nat × Nat) :=
  searchFrom matchDoAt s

/-- Pattern 2 at one position: `(\d{1,2})-(\d{1,2})(?!\d)`. -/
def matchShortAt (s : List Char) : Option (Nat × Nat) :=
  (d12alts s).findSome? fun p1 => do
    let s ← dropLit [ '-' ] p1.2
    (d12alts s).findSome? fun p2 =>
      match p2.2 with
      | [] => pure (p1.1, p2.1)
      | c :: _ => if isDigitCh c then none else pure (p1.1, p2.1)

/-- `re.search` of pattern 2 (the short "HH-HH" range). -/
def matchShortSearch (s : List Char) : Option (Nat × Nat) :=
  searchFrom matchShortAt s

/-- Pattern 3 at one position: `(\d{1,2})[:\.](\d{2})-(\d{1,2})[:\.](\d{2})`. -/
def matchDashAt (s : List Char) : Option (Nat × Nat × Nat × Nat) :=
  (d12alts s).findSome? fun p1 => do
    let s ← colonDot p1.2
    let (m1, s) ← d2 s
    let s ← dropLit [ '-' ] s
    (d12alts s).findSome? fun p2 => do
      let s ← colonDot p2.2
      let (m2, _) ← d2 s
      pure (p1.1, m1, p2.1, m2)

/-- `re.search` of pattern 3 (the dash "HH:MM-HH:MM" range). -/
def matchDashSearch (s : List Char) : Option (Nat × Nat × Nat × Nat) :=
  searchFrom matchDashAt s

/-- Single-time pattern 1 at one position: `в\s+(\d{1,2})[:\.](\d{2})`. -/
def singleTime1At (s : List Char) : Option (Nat × Nat) := do
  let s ← dropLit litV s
  let s ← wsPlus s
  (d12alts s).findSome? fun p => do
    let s ← colonDot p.2
    let (m, _) ← d2 s
    pure (p.1, m)

/-- Single-time pattern 2 at one position: `в\s+(\d{1,2})(?![:\.])`. -/
def singleTime2At (s : List Char) : Option (Nat × Nat) := do
  let s ← dropLit litV s
  let s ← wsPlus s
  (d12alts s).findSome? fun p =>
    match p.2 with
    | [] => pure (p.1, 0)
    | c :: _ => if c == ':' || c == '.' then none else pure (p.1, 0)

/-- Single-time pattern 3 at one position: `время\s+(\d{1,2})[:\.](\d{2})`. -/
def singleTime3At (s : List Char) : Option (Nat × Nat) := do
  let s ← dropLit litVremya s
  let s ← wsPlus s
  (d12alts s).findSome? fun p => do
    let s ← colonDot p.2
    let (m, _) ← d2 s
    pure (p.1, m)

/-- Single-time pattern 4 at one position (with its lookbehind):
`(?<!\d)(\d{1,2})[:\.](\d{2})(?!\s*[-до])`. -/
def singleTime4At (prev : Option Char) (s : List Char) : Option (Nat × Nat) :=
  match prev with
  | some c =>
    if isDigitCh c then none else
    (d12alts s).findSome? fun p => do
      let s ← colonDot p.2
      let (m, s) ← d2 s
      match wsStar s with
      | [] => pure (p.1, m)
      | c :: _ => if c == '-' || c == 'д' || c == 'о' then none else pure (p.1, m)
  | none =>
    (d12alts s).findSome? fun p => do
      let s ← colonDot p.2
      let (m, s) ← d2 s
      match wsStar s with
      | [] => pure (p.1, m)
      | c :: _ => if c == '-' || c == 'д' || c == 'о' then none else pure (p.1, m)

/-- Models `ScheduleManager._parse_single_time` on the (already lowered)
text: the four single-time patterns tried in order, with the range guard of
pattern 4 applied only to its first regex match, exactly as in the source. -/
def parseSingleTime (s : List Char) : Option (Nat × Nat) :=
  match searchFrom singleTime1At s with
  | some r => some r
  | none =>
  match searchFrom singleTime2At s with
  | some r => some r
  | none =>
  match searchFrom singleTime3At s with
  | some r => some r
  | none =>
  match searchFromPrev singleTime4At none s with
  | some (h, m) => if h ≤ 23 && m ≤ 59 then some (h, m) else none
  | none => none

/-- Models `ScheduleManager._create_time_range`: validate the extracted hours
and minutes; the resulting `datetime.min.replace(...)` values are only read
through their hour/minute fields, so the range is a pair of time-of-day pairs.
(`int()` of the matched digit strings cannot raise.) -/
def createTimeRange (h1 m1 h2 m2 : Nat) : Option ((Nat × Nat) × (Nat × Nat)) :=
  if h1 ≤ 23 && m1 ≤ 59 && h2 ≤ 23 && m2 ≤ 59 then
    some ((h1, m1), (h2, m2))
  else none

/-- Models `ScheduleManager.parse_time_range`: the four-stage cascade, where
the result of the first pattern that matches is returned (through
`_create_time_range`) without trying later patterns. -/
def parseTimeRange (text : List Char) : Option ((Nat × Nat) × (Nat × Nat)) :=
  let tl := lowerStr text
  match matchDoSearch tl with
  | some (h1, m1, h2, m2) => createTimeRange h1 m1 h2 m2
  | none =>
  match matchShortSearch tl with
  | some (h1, h2) => createTimeRange h1 0 h2 0
  | none =>
  match matchDashSearch tl with
  | some (h1, m1, h2, m2) => createTimeRange h1 m1 h2 m2
  | none =>
  match parseSingleTime tl with
  | some (h, m) =>
    if h + 1 ≥ 24 then createTimeRange h m 23 59
    else createTimeRange h m (h + 1) m
  | none => none

/-! ### Date parsing (`parse_russian_date`, `parse_weekday_date`,
`parse_relative_date`, `parse_date_without_year`) -/

/-- The `russian_months` table, in dict insertion order; `.get(name)` is an
exact-key lookup. -/
def monthsTable : List (List Char × Nat) :=
  [ ( "января".toList , 1), ( "январь".toList , 1),
    ( "февраля".toList , 2), ( "февраль".toList , 2),
    ( "марта".toList , 3), ( "март".toList , 3),
    ( "апреля".toList , 4), ( "апрель".toList , 4),
    ( "мая".toList , 5), ( "май".toList , 5),
    ( "июня".toList , 6), ( "июнь".toList , 6),
    ( "июля".toList , 7), ( "июль".toList , 7),
    ( "августа".toList , 8), ( "август".toList , 8),
    ( "сентября".toList , 9), ( "сентябрь".toList , 9),
    ( "октября".toList , 10), ( "октябрь".toList , 10),
    ( "ноября".toList , 11), ( "ноябрь".toList , 11),
    ( "декабря".toList , 12), ( "декабрь".toList , 12) ]

/-- The `russian_weekdays` table, in dict insertion order (iteration order of
the substring scan in `parse_weekday_date`). -/
def weekdayTable : List (List Char × Nat) :=
  [ ( "понедельник".toList , 0), ( "понедельника".toList , 0), ( "пн".toList , 0),
    ( "вторник".toList , 1), ( "вторника".toList , 1), ( "вт".toList , 1),
    ( "среда".toList , 2), ( "среду".toList , 2), ( "среды".toList , 2), ( "ср".toList , 2),
    ( "четверг".toList , 3), ( "четверга".toList , 3), ( "чт".toList , 3),
    ( "пятница".toList , 4), ( "пятницу".toList , 4), ( "пятницы".toList , 4), ( "пт".toList , 4),
    ( "суббота".toList , 5), ( "субботу".toList , 5), ( "субботы".toList , 5), ( "сб".toList , 5),
    ( "воскресенье".toList , 6), ( "воскресенья".toList , 6), ( "вс".toList , 6) ]

/-- The `relative_dates` table, in dict insertion order. -/
def relTable : List (List Char × Nat) :=
  [ ( "сегодня".toList , 0), ( "завтра".toList , 1), ( "послезавтра".toList , 2) ]

/-- Models `self.russian_months.get(month_name)` (exact key equality). -/
def monthLookup (name : List Char) : Option Nat :=
  (monthsTable.find? fun p => p.1 == name).map (·.2)

/-- First table entry whose name occurs as a substring of the (lowered) text:
the `for … if weekday_name in text_lower` scan in source order. -/
def findKw (table : List (List Char × Nat)) (tl : List Char) :
    Option (List Char × Nat) :=
  table.find? fun p => containsSeq p.1 tl

/-- Pattern of `parse_russian_date` at one position:
`(\d{1,2})\s+([а-яё]+)\s+(\d{4})`. -/
def matchDMYAt (s : List Char) : Option (Nat × List Char × Nat) :=
  (d12alts s).findSome? fun p => do
    let s ← wsPlus p.2
    let (name, s) ← cyrRun s
    let s ← wsPlus s
    let (year, _) ← d4 s
    pure (p.1, name, year)

/-- `re.search` of the day-month-year pattern. -/
def matchDMYSearch (s : List Char) : Option (Nat × List Char × Nat) :=
  searchFrom matchDMYAt s

/-- The lookahead `\s+\d{4}` of `parse_date_without_year`'s pattern: at least
one whitespace character followed by four digits. -/
def yearAhead (s : List Char) : Bool :=
  match wsPlus s with
  | some r => (d4 r).isSome
  | none => false

/-- Pattern of `parse_date_without_year` at one position:
`(\d{1,2})\s+([а-яё]+)(?!\s+\d{4})`, with the engine's backtracking of the
greedy group `([а-яё]+)` from the longest run down until the negative
lookahead is satisfied. -/
def matchDMAt (s : List Char) : Option (Nat × List Char) :=
  (d12alts s).findSome? fun p => do
    let s ← wsPlus p.2
    let (run, _) ← cyrRun s
    let len := run.length
    (List.range len).findSome? fun i =>
      let k := len - i
      if yearAhead (s.drop k) then none else pure (p.1, run.take k)

/-- `re.search` of the day-month pattern. -/
def matchDMSearch (s : List Char) : Option (Nat × List Char) :=
  searchFrom matchDMAt s

/-- Models `ScheduleManager.parse_russian_date`: "12 июля 2025" style dates
(a single regex search; unknown month names or invalid calendar dates give
`None` without further searching). -/
def parseRussianDate (text : List Char) : Option PyDateTime :=
  match matchDMYSearch (lowerStr text) with
  | none => none
  | some (day, name, year) =>
    match monthLookup name with
    | none => none
    | some m => mkDatetime (year : Int) m day

/-- Models `ScheduleManager.parse_weekday_date`: the first weekday-table name
occurring in the lowered text resolves to the next future occurrence of that
weekday (same weekday next week when today matches), at midnight. -/
def parseWeekdayDate (text : List Char) (now : PyDateTime) : Option PyDateTime :=
  match findKw weekdayTable (lowerStr text) with
  | none => none
  | some (_, num) =>
    let cw : Nat := weekdayOfDays now.days
    let e : Int := ((num : Int) - (cw : Int)) % 7
    let daysAhead : Int := if e = 0 then 7 else e
    some (atMidnight (addDays now daysAhead))

/-- Models `ScheduleManager.parse_relative_date`: "сегодня" / "завтра" /
"послезавтра" as substrings of the lowered text, in table order. -/
def parseRelativeDate (text : List Char) (now : PyDateTime) : Option PyDateTime :=
  match findKw relTable (lowerStr text) with
  | none => none
  | some (_, daysAhead) => some (atMidnight (addDays now (daysAhead : Int)))

/-- Models `ScheduleManager.parse_date_without_year`: "12 июля" style dates;
current year first, rolled to the next year when the date already lies
strictly before today's date; `ValueError` on either construction gives
`None`. -/
def parseDateWithoutYear (text : List Char) (now : PyDateTime) :
    Option PyDateTime :=
  match matchDMSearch (lowerStr text) with
  | none => none
  | some (day, name) =>
    match monthLookup name with
    | none => none
    | some m =>
      match mkDatetime now.year m day with
      | none => none
      | some t =>
        if t.days < now.days then mkDatetime (now.year + 1) m day
        else some t

/-! ### `parse_visit_info`, the visit store -/

/-- The dictionary returned by `parse_visit_info`:
`{'date', 'start_time', 'end_time', 'original_text'}` (`date` is the calendar
date, kept as a day count). -/
structure VisitInfo where
  dateDays : Int
  start_time : PyDateTime
  end_time : PyDateTime
  original_text : List Char
deriving DecidableEq, Repr

/-- The date-resolution cascade of `parse_visit_info`: full date with year,
then weekday names, then relative dates, then date without year. -/
def dateCascade (text : List Char) (now : PyDateTime) : Option PyDateTime :=
  match parseRussianDate text with
  | some d => some d
  | none =>
  match parseWeekdayDate text now with
  | some d => some d
  | none =>
  match parseRelativeDate text now with
  | some d => some d
  | none => parseDateWithoutYear text now

/-- Models `ScheduleManager.parse_visit_info`: a resolved date and a resolved
time range are both required; the date is combined with each time of day via
`date.replace(hour=…, minute=…, second=0, microsecond=0)`. -/
def parseVisitInfo (text : List Char) (now : PyDateTime) : Option VisitInfo :=
  match dateCascade text now, parseTimeRange text with
  | some date, some ((sh, sm), (eh, em)) =>
    some { dateDays := date.days
         , start_time :=
             { date with hour := sh, minute := sm, second := 0, microsecond := 0 }
         , end_time :=
             { date with hour := eh, minute := em, second := 0, microsecond := 0 }
         , original_text := text }
  | _, _ => none

/-- Models `dt.replace(hour=h, minute=m, second=0, microsecond=0)` with the
`ValueError` it raises on out-of-range fields made explicit (this call is NOT
wrapped in a `try` in `parse_visit_info`). -/
def replaceHM (t : PyDateTime) (h m : Nat) : Except Unit PyDateTime :=
  if h ≤ 23 && m ≤ 59 then
    Except.ok { t with hour := h, minute := m, second := 0, microsecond := 0 }
  else Except.error ()

/-- Exception-aware rendering of `parse_visit_info`: `Except.error` models a
`ValueError` escaping from the unguarded `date.replace` calls, `Except.ok
none` a clean parse failure. -/
def parseVisitInfoE (text : List Char) (now : PyDateTime) :
    Except Unit (Option VisitInfo) :=
  match dateCascade text now, parseTimeRange text with
  | some date, some ((sh, sm), (eh, em)) =>
    match replaceHM date sh sm, replaceHM date eh em with
    | Except.ok st, Except.ok en =>
      Except.ok (some { dateDays := date.days, start_time := st, end_time := en,
                        original_text := text })
    | _, _ => Except.error ()
  | _, _ => Except.ok none

/-- A stored visit (`Visit` dataclass).  The `id` field carries the content
of the SHA-256 fingerprint preimage `(start_time, end_time, original_text)`. -/
structure Visit where
  id : PyDateTime × PyDateTime × List Char
  start_time : PyDateTime
  end_time : PyDateTime
  original_text : List Char
  created_at : PyDateTime
deriving DecidableEq, Repr

/-- `Visit.__eq__`: visits are equal iff their `start_time` and `end_time`
denote the same instants (Python's `==` on aware datetimes). -/
def visitEq (a b : Visit) : Bool :=
  toUTCMicros a.start_time == toUTCMicros b.start_time &&
  toUTCMicros a.end_time == toUTCMicros b.end_time

/-- Models `ScheduleManager.add_visit` on a store state: parse, build the
visit, reject when an equal visit (by the `(start, end)` rule) is already
present, else insert.  Returns the result and the new store.  The backing
`set` is modelled as the list of its (pairwise `visitEq`-distinct) elements. -/
def addVisit (store : List Visit) (text : List Char) (now : PyDateTime) :
    Option Visit × List Visit :=
  match parseVisitInfo text now with
  | none => (none, store)
  | some info =>
    let v : Visit :=
      { id := (info.start_time, info.end_time, text)
      , start_time := info.start_time
      , end_time := info.end_time
      , original_text := text
      , created_at := now }
    if store.any fun w => visitEq w v then (none, store)
    else (some v, store ++ [v])

/-- Models `ScheduleManager.cleanup_past_visits`: keep only visits with
`end_time > now`. -/
def cleanupPastVisits (store : List Visit) (now : PyDateTime) : List Visit :=
  store.filter fun v => decide (toUTCMicros now < toUTCMicros v.end_time)

/-- Comparison by `start_time` used by `upcoming.sort(key=…)`. -/
def leStart (a b : Visit) : Prop :=
  toUTCMicros a.start_time ≤ toUTCMicros b.start_time

instance : DecidableRel leStart := fun a b => by unfold leStart; infer_instance

instance : IsTotal Visit leStart :=
  ⟨fun a b => Int.le_total (toUTCMicros a.start_time) (toUTCMicros b.start_time)⟩

instance : IsTrans Visit leStart :=
  ⟨fun _ _ _ h1 h2 => le_trans h1 h2⟩

/-- Models `ScheduleManager.get_upcoming_visits`: prune expired visits first,
then the visits with `now ≤ start ≤ now + timedelta(days=days_ahead)`, sorted
ascending by `start_time`.  Returns the listing and the pruned store (the
source mutates `self.visits` in the pruning step). -/
def getUpcomingVisits (store : List Visit) (daysAhead : Int)
    (now : PyDateTime) : List Visit × List Visit :=
  let cleaned := cleanupPastVisits store now
  let cutoff := addDays now daysAhead
  let upcoming := cleaned.filter fun v =>
    decide (toUTCMicros now ≤ toUTCMicros v.start_time) &&
    decide (toUTCMicros v.start_time ≤ toUTCMicros cutoff)
  (upcoming.insertionSort leStart, cleaned)

/-- Models `ScheduleManager.get_visit_count`. -/
def getVisitCount (store : List Visit) : Nat := store.length

/-- Exception-aware rendering of `add_visit` (built on `parseVisitInfoE`;
the remaining operations of `add_visit` are total). -/
def addVisitE (store : List Visit) (text : List Char) (now : PyDateTime) :
    Except Unit (Option Visit × List Visit) :=
  match parseVisitInfoE text now with
  | Except.error e => Except.error e
  | Except.ok none => Except.ok (none, store)
  | Except.ok (some info) =>
    let v : Visit :=
      { id := (info.start_time, info.end_time, text)
      , start_time := info.start_time
      , end_time := info.end_time
      , original_text := text
      , created_at := now }
    if store.any fun w => visitEq w v then Except.ok (none, store)
    else Except.ok (some v, store ++ [v])

/-- Decimal digits of a `Nat` (fuel-driven, fuel `n + 1` suffices). -/
def natChars : Nat → Nat → List Char
  | 0, _ => []
  | fuel + 1, n =>
    if n < 10 then [Char.ofNat (48 + n)]
    else natChars fuel (n / 10) ++ [Char.ofNat (48 + n % 10)]

/-- Decimal numeral of a `Nat`. -/
def natStr (n : Nat) : List Char := natChars (n + 1) n

/-- Two-digit zero-padded numeral (strftime `%d`, `%m`, `%H`, `%M`). -/
def pad2 (n : Nat) : List Char := if n < 10 then '0' :: natStr n else natStr n

/-- strftime `%d.%m.%Y` of a datetime. -/
def fmtDate (t : PyDateTime) : List Char :=
  pad2 (civilFromDays t.days).2.2 ++ [ '.' ] ++
  pad2 (civilFromDays t.days).2.1 ++ [ '.' ] ++
  natStr (civilFromDays t.days).1.toNat

/-- strftime `%H:%M` of a datetime. -/
def fmtHM (t : PyDateTime) : List Char := pad2 t.hour ++ [ ':' ] ++ pad2 t.minute

/-- One listing line of `format_visit_list`. -/
def visitLine (v : Visit) : List Char :=
  "📅 **".toList ++ fmtDate v.start_time ++ "** в **".toList ++
  fmtHM v.start_time ++ [ '-' ] ++ fmtHM v.end_time ++ "**".toList

/-- Models `ScheduleManager.format_visit_list`. -/
def formatVisitList (visits : List Visit) : List Char :=
  if visits.isEmpty then "🎾 Нет запланированных визитов".toList
  else
    List.intercalate [ '\n' ]
      ([ "🎾 **Запланированные визиты:**".toList , [] ] ++
        visits.flatMap fun v => [visitLine v, []])

/-! ### Concrete inputs and anchor instants used in the theorems -/

/-- The anchor clock value of the spec's concrete cases:
Monday 2025-06-02 10:00 in the +03:00 offset. -/
def anchorNow : PyDateTime :=
  { days := daysFromCivil 2025 6 2, hour := 10, minute := 0, second := 0,
    microsecond := 0, tzh := 3 }

/-- Input "сегодня 16-17". -/
def txtToday1617 : List Char := "сегодня 16-17".toList

/-- Input "сегодня от 16:00 до 17:00". -/
def txtTodayDo : List Char := "сегодня от 16:00 до 17:00".toList

/-- Input "9:60 до 10:00" (minute 60 out of range in the "до" pattern). -/
def txtBadMinute : List Char := "9:60 до 10:00".toList

/-- Input "12 июля, 16:30-17:30" (spec concrete case). -/
def txtJuly : List Char := "12 июля, 16:30-17:30".toList

/-- Input "Сегодня от 16 до 17" (spec concrete case). -/
def txtTodayOt : List Char := "Сегодня от 16 до 17".toList

/-- Input "пт 16-17" (spec concrete case). -/
def txtFri : List Char := "пт 16-17".toList

/-- Input "сегодня в 16:30" (single-time form). -/
def txtAt1630 : List Char := "сегодня в 16:30".toList

/-- Input "сегодня 23-01" (end time-of-day before start). -/
def txtWrap : List Char := "сегодня 23-01".toList

/-- Midnight of 2025-06-02 in the +03:00 offset. -/
def todayMidnight : PyDateTime :=
  { days := daysFromCivil 2025 6 2, hour := 0, minute := 0, second := 0,
    microsecond := 0, tzh := 3 }

/-- Midnight of Friday 2025-06-06 in the +03:00 offset. -/
def fridayMidnight : PyDateTime :=
  { days := daysFromCivil 2025 6 6, hour := 0, minute := 0, second := 0,
    microsecond := 0, tzh := 3 }

/-- Midnight of 2025-07-12 in the +03:00 offset. -/
def julyMidnight : PyDateTime :=
  { days := daysFromCivil 2025 7 12, hour := 0, minute := 0, second := 0,
    microsecond := 0, tzh := 3 }

/-- The visit that `add_visit("сегодня 23-01")` creates at the anchor clock:
its end instant (01:00) precedes its start instant (23:00). -/
def wrapVisit : Visit :=
  { id := ( { todayMidnight with hour := 23 }, { todayMidnight with hour := 1 },
            txtWrap )
  , start_time := { todayMidnight with hour := 23 }
  , end_time := { todayMidnight with hour := 1 }
  , original_text := txtWrap
  , created_at := anchorNow }

/-- A visit that ended before the anchor clock (08:00-09:00 the same day),
used to exercise the pruning branch of `get_upcoming_visits`. -/
def expiredVisit : Visit :=
  { id := ( { todayMidnight with hour := 8 }, { todayMidnight with hour := 9 },
            [] )
  , start_time := { todayMidnight with hour := 8 }
  , end_time := { todayMidnight with hour := 9 }
  , original_text := []
  , created_at := anchorNow }

/-! ### Helper lemmas -/

/-- `_create_time_range` succeeds exactly with the given values, all within
the valid hour/minute ranges. -/
theorem createTimeRange_bounds {h1 m1 h2 m2 sh sm eh em : Nat}
    (h : createTimeRange h1 m1 h2 m2 = some ((sh, sm), (eh, em))) :
    sh = h1 ∧ sm = m1 ∧ eh = h2 ∧ em = m2 ∧
    sh ≤ 23 ∧ sm ≤ 59 ∧ eh ≤ 23 ∧ em ≤ 59 := by
  unfold createTimeRange at h
  split at h
  · next hc =>
    simp only [Bool.and_eq_true, decide_eq_true_eq] at hc
    simp only [Option.some.injEq, Prod.mk.injEq] at h
    obtain ⟨⟨e1, e2⟩, e3, e4⟩ := h
    subst e1; subst e2; subst e3; subst e4
    exact ⟨rfl, rfl, rfl, rfl, hc.1.1.1, hc.1.1.2, hc.1.2, hc.2⟩
  · exact absurd h (by simp)

/-- Every time range produced by `parse_time_range` has hours in [0,23] and
minutes in [0,59]. -/
theorem parseTimeRange_bounds {text : List Char} {sh sm eh em : Nat}
    (h : parseTimeRange text = some ((sh, sm), (eh, em))) :
    sh ≤ 23 ∧ sm ≤ 59 ∧ eh ≤ 23 ∧ em ≤ 59 := by
  unfold parseTimeRange at h
  simp only [] at h
  split at h
  · obtain ⟨_, _, _, _, hb⟩ := createTimeRange_bounds h; exact hb
  · split at h
    · obtain ⟨_, _, _, _, hb⟩ := createTimeRange_bounds h; exact hb
    · split at h
      · obtain ⟨_, _, _, _, hb⟩ := createTimeRange_bounds h; exact hb
      · split at h
        · split at h
          · obtain ⟨_, _, _, _, hb⟩ := createTimeRange_bounds h; exact hb
          · obtain ⟨_, _, _, _, hb⟩ := createTimeRange_bounds h; exact hb
        · exact absurd h (by simp)

/-- Fields of a successfully constructed datetime. -/
theorem mkDatetime_fields {y : Int} {m d : Nat} {t : PyDateTime}
    (h : mkDatetime y m d = some t) :
    t.days = daysFromCivil y m d ∧ t.hour = 0 ∧ t.minute = 0 ∧
    t.second = 0 ∧ t.microsecond = 0 ∧ t.tzh = 3 := by
  unfold mkDatetime at h
  split at h
  · injection h with h; subst h; exact ⟨rfl, rfl, rfl, rfl, rfl, rfl⟩
  · exact absurd h (by simp)

/-- The unguarded `date.replace(hour=…, minute=…)` calls of
`parse_visit_info` never see out-of-range values: the exception-aware parse
agrees with the total one on every input. -/
theorem parseVisitInfoE_eq_ok (text : List Char) (now : PyDateTime) :
    parseVisitInfoE text now = Except.ok (parseVisitInfo text now) := by
  unfold parseVisitInfoE parseVisitInfo
  split
  · next date sh sm eh em hd ht =>
    obtain ⟨b1, b2, b3, b4⟩ := parseTimeRange_bounds ht
    rw [replaceHM, replaceHM, if_pos, if_pos]
    · simp [b3, b4]
    · simp [b1, b2]
  · rfl

/-- Decomposition of a successful `parse_visit_info`: a resolved date and a
resolved time range, combined by field replacement. -/
theorem parseVisitInfo_shape {text : List Char} {now : PyDateTime}
    {info : VisitInfo} (h : parseVisitInfo text now = some info) :
    ∃ date sh sm eh em,
      dateCascade text now = some date ∧
      parseTimeRange text = some ((sh, sm), (eh, em)) ∧
      info.dateDays = date.days ∧
      info.start_time =
        { date with hour := sh, minute := sm, second := 0, microsecond := 0 } ∧
      info.end_time =
        { date with hour := eh, minute := em, second := 0, microsecond := 0 } ∧
      info.original_text = text := by
  unfold parseVisitInfo at h
  split at h
  · next date sh sm eh em hd ht =>
    injection h with h
    subst h
    exact ⟨date, sh, sm, eh, em, hd, ht, rfl, rfl, rfl, rfl⟩
  · exact absurd h (by simp)

/-- Every date resolved by the cascade carries the fixed +03:00 offset
(given that the injected clock does). -/
theorem dateCascade_tzh {text : List Char} {now : PyDateTime} {d : PyDateTime}
    (h : dateCascade text now = some d) (hn : now.tzh = 3) : d.tzh = 3 := by
  unfold dateCascade at h
  split at h
  · next hr =>
    injection h with h; subst h
    unfold parseRussianDate at hr
    split at hr
    · exact absurd hr (by simp)
    · split at hr
      · exact absurd hr (by simp)
      · exact (mkDatetime_fields hr).2.2.2.2.2
  · split at h
    · next hw =>
      injection h with h; subst h
      unfold parseWeekdayDate at hw
      split at hw
      · exact absurd hw (by simp)
      · injection hw with hw; subst hw; exact hn
    · split at h
      · next hr =>
        injection h with h; subst h
        unfold parseRelativeDate at hr
        split at hr
        · exact absurd hr (by simp)
        · injection hr with hr; subst hr; exact hn
      · unfold parseDateWithoutYear at h
        split at h
        · exact absurd h (by simp)
        · split at h
          · exact absurd h (by simp)
          · split at h
            · exact absurd h (by simp)
            · next t ht =>
              split at h
              · exact (mkDatetime_fields h).2.2.2.2.2
              · injection h with h; subst h
                exact (mkDatetime_fields ht).2.2.2.2.2

/-- Decomposition of a successful `add_visit`: the returned visit is built
from the parsed info, the raw text and the clock. -/
theorem addVisit_some {store : List Visit} {text : List Char}
    {now : PyDateTime} {v : Visit}
    (h : (addVisit store text now).1 = some v) :
    ∃ info, parseVisitInfo text now = some info ∧
      v.start_time = info.start_time ∧ v.end_time = info.end_time ∧
      v.original_text = text ∧ v.created_at = now ∧
      v.id = (info.start_time, info.end_time, text) := by
  unfold addVisit at h
  split at h
  · exact absurd h (by simp)
  · next info hinfo =>
    simp only [] at h
    split at h
    · exact absurd h (by simp)
    · injection h with h
      subst h
      exact ⟨info, hinfo, rfl, rfl, rfl, rfl, rfl⟩

/-! ### Claim theorems -/

/-- C1: given a successful parse, `add_visit` rejects (returns `None` with
the store unchanged) iff a visit with both start and end instants equal is
already in the store — regardless of its `original_text` or fingerprint id —
and adding twice with texts that parse to identical (start, end) instants
yields the new visit first and a rejection second, with the store unchanged
in size by the second call. -/
theorem c1_duplicate_iff_idempotent :
    (∀ store text now info,
       parseVisitInfo text now = some info →
       (((addVisit store text now).1 = none ∧
         (addVisit store text now).2 = store) ↔
        ∃ w ∈ store,
          toUTCMicros w.start_time = toUTCMicros info.start_time ∧
          toUTCMicros w.end_time = toUTCMicros info.end_time)) ∧
    (∀ store t1 t2 now i1 i2,
       parseVisitInfo t1 now = some i1 →
       parseVisitInfo t2 now = some i2 →
       toUTCMicros i2.start_time = toUTCMicros i1.start_time →
       toUTCMicros i2.end_time = toUTCMicros i1.end_time →
       (¬ ∃ w ∈ store,
          toUTCMicros w.start_time = toUTCMicros i1.start_time ∧
          toUTCMicros w.end_time = toUTCMicros i1.end_time) →
       ∃ v1,
         (addVisit store t1 now).1 = some v1 ∧
         (addVisit store t1 now).2 = store ++ [v1] ∧
         v1.start_time = i1.start_time ∧ v1.end_time = i1.end_time ∧
         v1.original_text = t1 ∧
         addVisit (store ++ [v1]) t2 now = (none, store ++ [v1]) ∧
         (store ++ [v1]).length = store.length + 1) := by
  constructor
  · intro store text now info hp
    unfold addVisit
    rw [hp]
    simp only []
    cases hany : store.any fun w => visitEq w
        { id := (info.start_time, info.end_time, text)
        , start_time := info.start_time, end_time := info.end_time
        , original_text := text, created_at := now } with
    | true =>
      rw [if_pos rfl]
      constructor
      · intro _
        rcases List.any_eq_true.mp hany with ⟨w, hw, hq⟩
        unfold visitEq at hq
        simp only [Bool.and_eq_true, beq_iff_eq] at hq
        exact ⟨w, hw, hq.1, hq.2⟩
      · intro _; exact ⟨rfl, rfl⟩
    | false =>
      rw [if_neg Bool.false_ne_true]
      constructor
      · rintro ⟨hcontra, -⟩
        exact absurd hcontra (by simp)
      · rintro ⟨w, hw, h1, h2⟩
        have htrue : store.any fun w => visitEq w
            { id := (info.start_time, info.end_time, text)
            , start_time := info.start_time, end_time := info.end_time
            , original_text := text, created_at := now } := by
          refine List.any_eq_true.mpr ⟨w, hw, ?_⟩
          unfold visitEq
          simp only [Bool.and_eq_true, beq_iff_eq]
          exact ⟨h1, h2⟩
        rw [hany] at htrue
        exact absurd htrue Bool.false_ne_true
  · intro store t1 t2 now i1 i2 hp1 hp2 hs he hno
    have hany1 : (store.any fun w => visitEq w
        { id := (i1.start_time, i1.end_time, t1)
        , start_time := i1.start_time, end_time := i1.end_time
        , original_text := t1, created_at := now }) = false := by
      rw [List.any_eq_false]
      intro w hw hq
      unfold visitEq at hq
      simp only [Bool.and_eq_true, beq_iff_eq] at hq
      exact hno ⟨w, hw, hq.1, hq.2⟩
    refine ⟨{ id := (i1.start_time, i1.end_time, t1)
            , start_time := i1.start_time, end_time := i1.end_time
            , original_text := t1, created_at := now }, ?_, ?_, rfl, rfl, rfl, ?_, by simp⟩
    · unfold addVisit
      rw [hp1]
      simp only []
      rw [if_neg (by rw [hany1]; exact Bool.false_ne_true)]
    · unfold addVisit
      rw [hp1]
      simp only []
      rw [if_neg (by rw [hany1]; exact Bool.false_ne_true)]
    · unfold addVisit
      rw [hp2]
      simp only []
      rw [if_pos]
      refine List.any_eq_true.mpr
        ⟨_, List.mem_append_right store (List.mem_singleton.mpr rfl), ?_⟩
      unfold visitEq
      simp only [Bool.and_eq_true, beq_iff_eq]
      exact ⟨hs.symm, he.symm⟩

/-- C1 witness: "сегодня 16-17" and "сегодня от 16:00 до 17:00" parse to the
same instants at the anchor clock; the first add returns the new visit, the
second is rejected with the store unchanged. -/
theorem c1_duplicate_iff_idempotent_witness :
    ∃ v1,
      (addVisit [] txtToday1617 anchorNow).1 = some v1 ∧
      (addVisit [] txtToday1617 anchorNow).2 = [] ++ [v1] ∧
      v1.start_time = { todayMidnight with hour := 16 } ∧
      v1.end_time = { todayMidnight with hour := 17 } ∧
      v1.original_text = txtToday1617 ∧
      addVisit ([] ++ [v1]) txtTodayDo anchorNow = (none, [] ++ [v1]) ∧
      ([] ++ [v1]).length = List.length ([] : List Visit) + 1 :=
  c1_duplicate_iff_idempotent.2 [] txtToday1617 txtTodayDo anchorNow
    { dateDays := daysFromCivil 2025 6 2
    , start_time := { todayMidnight with hour := 16 }
    , end_time := { todayMidnight with hour := 17 }
    , original_text := txtToday1617 }
    { dateDays := daysFromCivil 2025 6 2
    , start_time := { todayMidnight with hour := 16 }
    , end_time := { todayMidnight with hour := 17 }
    , original_text := txtTodayDo }
    (by decide) (by decide) rfl rfl (by simp)

/-- C2 counterexample: in "9:60 до 10:00" the "до" pattern matches with
minute 60 out of range; the single-time last resort would succeed on the
same text (yielding 10:00), yet `parse_time_range` returns `None` — the
cascade does not continue past a matching-but-invalid pattern. -/
theorem c2_counterexample_cascade_stops :
    matchDoSearch (lowerStr txtBadMinute) = some (9, 60, 10, 0) ∧
    parseSingleTime (lowerStr txtBadMinute) = some (10, 0) ∧
    parseTimeRange txtBadMinute = none :=
  ⟨rfl, rfl, rfl⟩

/-- C2 (amended): when a time-range pattern of the cascade matches the text,
`parse_time_range` returns that pattern's validation result — so extracted
values outside [0,23]/[0,59] make the whole time resolution fail immediately,
and later patterns are attempted only when earlier patterns do not match at
all. -/
theorem c2_validation_failure_is_hard (text : List Char) :
    (∀ h1 m1 h2 m2,
       matchDoSearch (lowerStr text) = some (h1, m1, h2, m2) →
       parseTimeRange text = createTimeRange h1 m1 h2 m2) ∧
    (∀ h1 h2,
       matchDoSearch (lowerStr text) = none →
       matchShortSearch (lowerStr text) = some (h1, h2) →
       parseTimeRange text = createTimeRange h1 0 h2 0) ∧
    (∀ h1 m1 h2 m2,
       matchDoSearch (lowerStr text) = none →
       matchShortSearch (lowerStr text) = none →
       matchDashSearch (lowerStr text) = some (h1, m1, h2, m2) →
       parseTimeRange text = createTimeRange h1 m1 h2 m2) := by
  refine ⟨fun h1 m1 h2 m2 hdo => ?_, fun h1 h2 hdo hsh => ?_,
          fun h1 m1 h2 m2 hdo hsh hda => ?_⟩
  · unfold parseTimeRange; simp only []; rw [hdo]
  · unfold parseTimeRange; simp only []; rw [hdo, hsh]
  · unfold parseTimeRange; simp only []; rw [hdo, hsh, hda]

/-- C2 witness: the amended statement applied to "9:60 до 10:00". -/
theorem c2_validation_failure_is_hard_witness :
    parseTimeRange txtBadMinute = createTimeRange 9 60 10 0 :=
  (c2_validation_failure_is_hard txtBadMinute).1 9 60 10 0 rfl

/-- C3: the claim (and the repository's own /help examples) says
"12 июля, 16:30-17:30" parses to 2025-07-12 16:30–17:30 at the anchor clock.
The code disagrees: the date strategy alone succeeds (2025-07-12), but the
short "HH-HH" pattern matches the substring "30-17" first, hour 30 fails
validation, and the whole time resolution — hence the whole parse — returns
`None`. -/
theorem c3_july_dash_example_fails :
    parseDateWithoutYear txtJuly anchorNow = some julyMidnight ∧
    matchShortSearch (lowerStr txtJuly) = some (30, 17) ∧
    parseTimeRange txtJuly = none ∧
    parseVisitInfo txtJuly anchorNow = none :=
  ⟨by decide, rfl, rfl, rfl⟩

/-- C4: the claim (and the repository's own /help examples) says
"Сегодня от 16 до 17" parses to 2025-06-02 16:00–17:00 at the anchor clock.
The code disagrees: the date strategy succeeds (today), but the "до" pattern
requires minutes ("HH:MM до HH:MM") and no other time pattern matches this
text, so time resolution — hence the whole parse — returns `None`. -/
theorem c4_today_ot_example_fails :
    parseRelativeDate txtTodayOt anchorNow = some todayMidnight ∧
    parseTimeRange txtTodayOt = none ∧
    parseVisitInfo txtTodayOt anchorNow = none :=
  ⟨by decide, rfl, rfl⟩

/-- C5: whenever the text contains a weekday-table name (as a substring of
the lowered text) `parse_weekday_date` succeeds, and every resolved date has
the weekday of the first matching table entry, lies strictly after today's
date (1 to 7 days ahead, never today), and is normalized to midnight. -/
theorem c5_weekday_resolution (text : List Char) (now : PyDateTime) :
    ((∃ p ∈ weekdayTable, containsSeq p.1 (lowerStr text) = true) →
      (parseWeekdayDate text now).isSome = true) ∧
    (∀ d, parseWeekdayDate text now = some d →
      (∃ p ∈ weekdayTable, containsSeq p.1 (lowerStr text) = true ∧
        weekdayOfDays d.days = p.2) ∧
      now.days < d.days ∧ d.days ≤ now.days + 7 ∧
      d.hour = 0 ∧ d.minute = 0 ∧ d.second = 0 ∧ d.microsecond = 0) := by
  constructor
  · rintro ⟨p, hp, hc⟩
    unfold parseWeekdayDate findKw
    cases hfind : weekdayTable.find? fun q => containsSeq q.1 (lowerStr text) with
    | none =>
      have hsome : (weekdayTable.find? fun q =>
          containsSeq q.1 (lowerStr text)).isSome :=
        List.find?_isSome.mpr ⟨p, hp, hc⟩
      rw [hfind] at hsome
      exact absurd hsome (by simp)
    | some q =>
      simp [hfind]
  · intro d hd
    unfold parseWeekdayDate findKw at hd
    cases hfind : weekdayTable.find? fun q => containsSeq q.1 (lowerStr text) with
    | none => rw [hfind] at hd; exact absurd hd (by simp)
    | some q =>
      rw [hfind] at hd
      simp only [] at hd
      have hmem := List.mem_of_find?_eq_some hfind
      have hpred := List.find?_some hfind
      have hb : q.2 ≤ 6 := by
        have hall : ∀ p ∈ weekdayTable, p.2 ≤ 6 := by decide
        exact hall q hmem
      injection hd with hd
      subst hd
      unfold weekdayOfDays atMidnight addDays
      simp only []
      refine ⟨⟨q, hmem, hpred, ?_⟩, ?_, ?_, trivial, trivial, trivial, trivial⟩
      · split_ifs with he <;> omega
      · split_ifs with he <;> omega
      · split_ifs with he <;> omega

/-- C5 witness: "пт 16-17" at the anchor clock (Monday 2025-06-02) resolves
to Friday 2025-06-06 at midnight. -/
theorem c5_weekday_resolution_witness :
    parseWeekdayDate txtFri anchorNow = some fridayMidnight ∧
    ((∃ p ∈ weekdayTable, containsSeq p.1 (lowerStr txtFri) = true ∧
        weekdayOfDays fridayMidnight.days = p.2) ∧
      anchorNow.days < fridayMidnight.days ∧
      fridayMidnight.days ≤ anchorNow.days + 7 ∧
      fridayMidnight.hour = 0 ∧ fridayMidnight.minute = 0 ∧
      fridayMidnight.second = 0 ∧ fridayMidnight.microsecond = 0) :=
  ⟨by decide,
    (c5_weekday_resolution txtFri anchorNow).2 fridayMidnight (by decide)⟩

/-- C6: when the three range patterns do not match and the single-time
branch resolves, the interval is exactly one hour, except that a start hour
of 23 (whose computed end hour would reach 24) is clamped to the end 23:59
as a time of day on the same date, rather than rolling into the next day. -/
theorem c6_single_time_one_hour (text : List Char) :
    ∀ sh sm eh em,
      matchDoSearch (lowerStr text) = none →
      matchShortSearch (lowerStr text) = none →
      matchDashSearch (lowerStr text) = none →
      parseTimeRange text = some ((sh, sm), (eh, em)) →
      (sh ≤ 22 ∧ eh = sh + 1 ∧ em = sm ∧
        eh * 60 + em = sh * 60 + sm + 60) ∨
      (sh = 23 ∧ eh = 23 ∧ em = 59) := by
  intro sh sm eh em hdo hsh hda h
  unfold parseTimeRange at h
  simp only [hdo, hsh, hda] at h
  split at h
  · next hh mm hsingle =>
    split at h
    · next hge =>
      obtain ⟨e1, e2, e3, e4, b1, b2, b3, b4⟩ := createTimeRange_bounds h
      right; omega
    · next hlt =>
      obtain ⟨e1, e2, e3, e4, b1, b2, b3, b4⟩ := createTimeRange_bounds h
      left; omega
  · exact absurd h (by simp)

/-- C6 witness: "сегодня в 16:30" reaches the single-time branch and yields
the one-hour interval 16:30–17:30. -/
theorem c6_single_time_one_hour_witness :
    matchDoSearch (lowerStr txtAt1630) = none ∧
    matchShortSearch (lowerStr txtAt1630) = none ∧
    matchDashSearch (lowerStr txtAt1630) = none ∧
    parseTimeRange txtAt1630 = some ((16, 30), (17, 30)) ∧
    ((16 ≤ 22 ∧ 17 = 16 + 1 ∧ 30 = 30 ∧ 17 * 60 + 30 = 16 * 60 + 30 + 60) ∨
      (16 = 23 ∧ 17 = 23 ∧ 30 = 59)) :=
  ⟨rfl, rfl, rfl, rfl,
    c6_single_time_one_hour txtAt1630 16 30 17 30 rfl rfl rfl rfl⟩

/-- C7: `get_upcoming_visits` first prunes every visit whose end is at or
before `now` (the pruned store is the second component), then returns exactly
the remaining visits with `now ≤ start ≤ now + horizon_days`, sorted
ascending by start, and returns the empty list when nothing qualifies. -/
theorem c7_upcoming_listing (store : List Visit) (daysAhead : Int)
    (now : PyDateTime) :
    (∀ v, v ∈ (getUpcomingVisits store daysAhead now).2 ↔
       v ∈ store ∧ toUTCMicros now < toUTCMicros v.end_time) ∧
    (∀ v, v ∈ (getUpcomingVisits store daysAhead now).1 ↔
       v ∈ store ∧ toUTCMicros now < toUTCMicros v.end_time ∧
       toUTCMicros now ≤ toUTCMicros v.start_time ∧
       toUTCMicros v.start_time ≤ toUTCMicros (addDays now daysAhead)) ∧
    List.Sorted leStart (getUpcomingVisits store daysAhead now).1 ∧
    ((∀ v ∈ store, ¬(toUTCMicros now < toUTCMicros v.end_time ∧
        toUTCMicros now ≤ toUTCMicros v.start_time ∧
        toUTCMicros v.start_time ≤ toUTCMicros (addDays now daysAhead))) →
      (getUpcomingVisits store daysAhead now).1 = []) := by
  have hmem1 : ∀ v, v ∈ (getUpcomingVisits store daysAhead now).1 ↔
      v ∈ store ∧ toUTCMicros now < toUTCMicros v.end_time ∧
      toUTCMicros now ≤ toUTCMicros v.start_time ∧
      toUTCMicros v.start_time ≤ toUTCMicros (addDays now daysAhead) := by
    intro v
    unfold getUpcomingVisits cleanupPastVisits
    simp only []
    rw [(List.perm_insertionSort leStart _).mem_iff]
    simp only [List.mem_filter, List.mem_filter, Bool.and_eq_true,
      decide_eq_true_eq]
    tauto
  refine ⟨?_, hmem1, ?_, ?_⟩
  · intro v
    unfold getUpcomingVisits cleanupPastVisits
    simp only [List.mem_filter, decide_eq_true_eq]
  · unfold getUpcomingVisits
    simp only []
    exact List.sorted_insertionSort leStart _
  · intro hnone
    refine List.eq_nil_iff_forall_not_mem.mpr fun v hv => ?_
    rcases (hmem1 v).mp hv with ⟨hvs, h1, h2, h3⟩
    exact hnone v hvs ⟨h1, h2, h3⟩

/-- C7 witness: a store holding only an already-ended visit yields the empty
listing (not an error). -/
theorem c7_upcoming_listing_witness :
    (getUpcomingVisits [expiredVisit] 30 anchorNow).1 = [] :=
  (c7_upcoming_listing [expiredVisit] 30 anchorNow).2.2.2 (by decide)

/-- C8 counterexample: `add_visit("сегодня 23-01")` at the anchor clock
returns a visit whose end instant (01:00) strictly precedes its start
instant (23:00): `end > start` does not hold for every constructed visit. -/
theorem c8_counterexample_end_before_start :
    (addVisit [] txtWrap anchorNow).1 = some wrapVisit ∧
    toUTCMicros wrapVisit.end_time < toUTCMicros wrapVisit.start_time :=
  ⟨by decide, by decide⟩

/-- C8 (amended): `end > start` is not enforced at construction; what holds
for every visit returned by `add_visit` is that start and end lie on the same
calendar date in the same offset with seconds and microseconds zero, and
`end > start` holds exactly when the extracted end time-of-day is strictly
later than the start time-of-day. -/
theorem c8_end_after_start_iff (store : List Visit) (text : List Char)
    (now : PyDateTime) (v : Visit)
    (h : (addVisit store text now).1 = some v) :
    v.start_time.days = v.end_time.days ∧
    v.start_time.tzh = v.end_time.tzh ∧
    v.start_time.second = 0 ∧ v.end_time.second = 0 ∧
    v.start_time.microsecond = 0 ∧ v.end_time.microsecond = 0 ∧
    (toUTCMicros v.start_time < toUTCMicros v.end_time ↔
      v.start_time.hour * 60 + v.start_time.minute <
        v.end_time.hour * 60 + v.end_time.minute) := by
  obtain ⟨info, hp, hs, he, -, -, -⟩ := addVisit_some h
  obtain ⟨date, sh, sm, eh, em, -, -, -, his, hie, -⟩ := parseVisitInfo_shape hp
  rw [hs, he, his, hie]
  refine ⟨rfl, rfl, rfl, rfl, rfl, rfl, ?_⟩
  unfold toUTCMicros
  simp only []
  omega

/-- C8 witness: the amended statement applied to "сегодня 16-17". -/
theorem c8_end_after_start_iff_witness :
    (addVisit [] txtToday1617 anchorNow).1 = some
      { id := ( { todayMidnight with hour := 16 },
                { todayMidnight with hour := 17 }, txtToday1617 )
      , start_time := { todayMidnight with hour := 16 }
      , end_time := { todayMidnight with hour := 17 }
      , original_text := txtToday1617
      , created_at := anchorNow } ∧
    ({ todayMidnight with hour := 16 } : PyDateTime).days =
      ({ todayMidnight with hour := 17 } : PyDateTime).days ∧
    (toUTCMicros { todayMidnight with hour := 16 } <
        toUTCMicros { todayMidnight with hour := 17 } ↔
      16 * 60 + 0 < 17 * 60 + 0) := by
  have hadd : (addVisit [] txtToday1617 anchorNow).1 = some
      { id := ( { todayMidnight with hour := 16 },
                { todayMidnight with hour := 17 }, txtToday1617 )
      , start_time := { todayMidnight with hour := 16 }
      , end_time := { todayMidnight with hour := 17 }
      , original_text := txtToday1617
      , created_at := anchorNow } := by decide
  have hc := c8_end_after_start_iff [] txtToday1617 anchorNow _ hadd
  exact ⟨hadd, hc.1, hc.2.2.2.2.2.2⟩

/-- C9: no exception escapes the parser or the store: the exception-aware
renderings of `parse_visit_info` and `add_visit` (in which the unguarded
`date.replace` calls may raise) always return `Except.ok` of the total
model's result, for every input text, clock and store state; the remaining
operations (`get_upcoming_visits`, `format_visit_list`, `get_visit_count`)
are total functions of the model by construction. -/
theorem c9_no_exception_escapes (text : List Char) (now : PyDateTime)
    (store : List Visit) :
    parseVisitInfoE text now = Except.ok (parseVisitInfo text now) ∧
    addVisitE store text now = Except.ok (addVisit store text now) := by
  refine ⟨parseVisitInfoE_eq_ok text now, ?_⟩
  unfold addVisitE addVisit
  rw [parseVisitInfoE_eq_ok text now]
  cases parseVisitInfo text now with
  | none => rfl
  | some info =>
    simp only []
    split <;> rfl

/-- C10: every visit produced by a successful `add_visit` has start and end
on the same calendar date, seconds and microseconds zero on both, and both
in the fixed +03:00 offset (given the injected clock carries that offset). -/
theorem c10_visit_normalized (store : List Visit) (text : List Char)
    (now : PyDateTime) (v : Visit) (hn : now.tzh = 3)
    (h : (addVisit store text now).1 = some v) :
    v.start_time.days = v.end_time.days ∧
    v.start_time.second = 0 ∧ v.start_time.microsecond = 0 ∧
    v.end_time.second = 0 ∧ v.end_time.microsecond = 0 ∧
    v.start_time.tzh = 3 ∧ v.end_time.tzh = 3 := by
  obtain ⟨info, hp, hs, he, -, -, -⟩ := addVisit_some h
  obtain ⟨date, sh, sm, eh, em, hd, -, -, his, hie, -⟩ := parseVisitInfo_shape hp
  have ht3 := dateCascade_tzh hd hn
  rw [hs, he, his, hie]
  exact ⟨rfl, rfl, rfl, rfl, rfl, ht3, ht3⟩

/-- C10 witness: applied to "сегодня от 16:00 до 17:00" at the anchor
clock. -/
theorem c10_visit_normalized_witness :
    anchorNow.tzh = 3 ∧
    (addVisit [] txtTodayDo anchorNow).1 = some
      { id := ( { todayMidnight with hour := 16 },
                { todayMidnight with hour := 17 }, txtTodayDo )
      , start_time := { todayMidnight with hour := 16 }
      , end_time := { todayMidnight with hour := 17 }
      , original_text := txtTodayDo
      , created_at := anchorNow } ∧
    ({ todayMidnight with hour := 16 } : PyDateTime).tzh = 3 := by
  have hadd : (addVisit [] txtTodayDo anchorNow).1 = some
      { id := ( { todayMidnight with hour := 16 },
                { todayMidnight with hour := 17 }, txtTodayDo )
      , start_time := { todayMidnight with hour := 16 }
      , end_time := { todayMidnight with hour := 17 }
      , original_text := txtTodayDo
      , created_at := anchorNow } := by decide
  have hc := c10_visit_normalized [] txtTodayDo anchorNow _ rfl hadd
  exact ⟨rfl, hadd, hc.2.2.2.2.2.1⟩
